import Mathlib

/-!
Verification development for the reciprocal-mirroring simulation.

The Python sources are embedded shallowly over the real numbers:
vectors become `List ℝ`, the pseudorandom Gaussian draws consumed by the
mirroring operations become explicit vector arguments, and each mutating
method becomes a pure function from the old record to the new one.
The three variants are embedded in the namespaces `Base`
(models/python/reciprocal_mirror.py), `Trust`
(models/python/reciprocal_mirror_trust.py) and `Enhanced`
(journal-submission/analysis/reciprocal_mirror_enhanced.py).
-/

/-- Arithmetic mean of a list of reals (np.mean); the empty list yields
0 because Lean division by zero is 0. -/
noncomputable def listMean (l : List ℝ) : ℝ := l.sum / l.length

/-- Dot product of two real vectors represented as lists (np.dot). -/
noncomputable def dot (xs ys : List ℝ) : ℝ := (List.zipWith (fun a b => a * b) xs ys).sum

/-- Squared Euclidean norm of a vector. -/
noncomputable def norm2 (xs : List ℝ) : ℝ := dot xs xs

/-- Euclidean norm of a vector (np.linalg.norm). -/
noncomputable def lnorm (xs : List ℝ) : ℝ := Real.sqrt (norm2 xs)

/-- Division of a vector by its own Euclidean norm, the expression
`v / np.linalg.norm(v)` used throughout the sources. -/
noncomputable def normVec (xs : List ℝ) : List ℝ := xs.map (fun x => x / lnorm xs)

/-- Population variance of a list (np.var, ddof = 0): the mean of the
squared deviations from the mean. -/
noncomputable def npVar (l : List ℝ) : ℝ :=
  ((l.map (fun x => (x - listMean l) ^ 2)).sum) / l.length

/-- Mean of the squares of a list; used to restate the variance through
the identity var = mean of squares minus square of mean. -/
noncomputable def meanSq (l : List ℝ) : ℝ := ((l.map (fun x => x ^ 2)).sum) / l.length

/-- Pearson correlation coefficient of two equal-length vectors, the
entry np.corrcoef(x, y)[0, 1]: the centered cross sum divided by the
square root of the product of the centered square sums (the 1/(n-1)
factors of the covariance matrix cancel in the quotient). -/
noncomputable def pearson (xs ys : List ℝ) : ℝ :=
  (List.zipWith (fun a b => (a - listMean xs) * (b - listMean ys)) xs ys).sum /
    Real.sqrt (((xs.map (fun a => (a - listMean xs) ^ 2)).sum) *
      ((ys.map (fun b => (b - listMean ys) ^ 2)).sum))

/-- ConsciousnessState dataclass shared by reciprocal_mirror.py and
reciprocal_mirror_trust.py: a vector of dimensions plus the three
scalars complexity, openness and energy. -/
structure CState where
  dimensions : List ℝ
  complexity : ℝ
  openness : ℝ
  energy : ℝ

/-- ConsciousnessState construction: the dataclass body followed by
post_init, which divides the dimensions by their norm. -/
noncomputable def mkState (dims : List ℝ) (c o e : ℝ) : CState :=
  ⟨normVec dims, c, o, e⟩

namespace Base

/-- ReciprocMirrorAgent of reciprocal_mirror.py: its consciousness
state plus the scalar fields of the constructor.  The mirror_history
list is presentation-only and is omitted. -/
structure Agent where
  state : CState
  threshold : ℝ
  learningRate : ℝ
  convergenceRate : ℝ
  understanding : ℝ
  phase : ℕ

/-- Vector built inside ReciprocMirrorAgent.mirror before the final
normalization: the partner dimensions scaled by
min(1, current_understanding + 0.1), plus the Gaussian noise draw
(an explicit argument here), all scaled by openness * energy. -/
noncomputable def mirrorPre (a : Agent) (other : CState) (currentU : ℝ)
    (noise : List ℝ) : List ℝ :=
  (List.zipWith (fun o z => o * min 1 (currentU + 0.1) + z) other.dimensions noise).map
    (fun x => x * (a.state.openness * a.state.energy))

/-- ReciprocMirrorAgent.mirror: the pre-normalization vector divided by
its norm, with no guard against a zero norm. -/
noncomputable def mirror (a : Agent) (other : CState) (currentU : ℝ)
    (noise : List ℝ) : List ℝ :=
  normVec (mirrorPre a other currentU noise)

/-- Vector built inside ReciprocMirrorAgent.converge_state before the
final normalization: dimensions plus convergence_strength times the
difference toward the partner dimensions. -/
noncomputable def convergePre (a : Agent) (other : CState) : List ℝ :=
  List.zipWith
    (fun x o =>
      x + a.convergenceRate * a.understanding * a.state.openness * a.state.energy * (o - x))
    a.state.dimensions other.dimensions

/-- ReciprocMirrorAgent.converge_state: move toward the partner and
re-normalize, with no guard against a zero norm. -/
noncomputable def convergeState (a : Agent) (other : CState) : Agent :=
  { a with state := { a.state with dimensions := normVec (convergePre a other) } }

/-- ReciprocMirrorAgent.update_understanding: add
learning_rate * mirror_quality * (1 - |complexity difference|) to the
understanding, clamp at 1, and recompute the phase from the thresholds
0.25 / 0.5 / 0.75. -/
noncomputable def updateUnderstanding (a : Agent) (mirrorQuality otherComplexity : ℝ) :
    Agent :=
  let u := min 1 (a.understanding +
    a.learningRate * mirrorQuality * (1 - |a.state.complexity - otherComplexity|))
  { a with
    understanding := u,
    phase := if u < 0.25 then 1 else if u < 0.5 then 2 else if u < 0.75 then 3 else 4 }

/-- ReciprocMirrorAgent.make_choice: always continue during the grace
period; afterwards disengage when understanding is below the threshold,
or when the phase is at least 3 and energy is below 0.2. -/
noncomputable def makeChoice (a : Agent) (timeStep gracePeriod : ℕ) : Bool :=
  if timeStep < gracePeriod then true
  else if a.understanding < a.threshold then false
  else if 3 ≤ a.phase ∧ a.state.energy < 0.2 then false
  else true

/-- ReciprocMirrorSystem of reciprocal_mirror.py: the two agents, the
configuration scalars, the time counter and the recorded history
sequences (one value appended per step). -/
structure System where
  agentA : Agent
  agentB : Agent
  energyDepletionRate : ℝ
  gracePeriod : ℕ
  time : ℕ
  histUA : List ℝ
  histUB : List ℝ
  histEA : List ℝ
  histEB : List ℝ
  histAlign : List ℝ
  histShared : List ℝ

/-- Mirror-quality scalar computed for agent A inside
ReciprocMirrorSystem.step (line 152): the raw signed Pearson
correlation of the produced mirror with the partner dimensions. -/
noncomputable def stepQualityA (sys : System) (noiseA : List ℝ) : ℝ :=
  pearson (mirror sys.agentA sys.agentB.state sys.agentA.understanding noiseA)
    sys.agentB.state.dimensions

/-- Mirror-quality scalar computed for agent B inside
ReciprocMirrorSystem.step (line 153). -/
noncomputable def stepQualityB (sys : System) (noiseB : List ℝ) : ℝ :=
  pearson (mirror sys.agentB sys.agentA.state sys.agentB.understanding noiseB)
    sys.agentA.state.dimensions

/-- State alignment |dot of the two dimension vectors|
(ReciprocMirrorSystem.calculate_state_alignment). -/
noncomputable def stateAlignment (a b : Agent) : ℝ :=
  |dot a.state.dimensions b.state.dimensions|

/-- ReciprocMirrorSystem.step as a pure function: both agents mirror
the pre-step states, qualities are the signed correlations, both
understandings update, A converges toward B and then B converges toward
the already-converged A, energy depletes with floor 0.1, the metrics are
appended, time increments, and the returned flag is the conjunction of
the two continuation choices evaluated at the incremented time. -/
noncomputable def step (sys : System) (noiseA noiseB : List ℝ) : System × Bool :=
  let qA := stepQualityA sys noiseA
  let qB := stepQualityB sys noiseB
  let a1 := updateUnderstanding sys.agentA qA sys.agentB.state.complexity
  let b1 := updateUnderstanding sys.agentB qB sys.agentA.state.complexity
  let a2 := convergeState a1 b1.state
  let b2 := convergeState b1 a2.state
  let a3 := { a2 with state :=
    { a2.state with energy := max 0.1 (a2.state.energy - sys.energyDepletionRate) } }
  let b3 := { b2 with state :=
    { b2.state with energy := max 0.1 (b2.state.energy - sys.energyDepletionRate) } }
  let align := stateAlignment a3 b3
  let shared := align * min a3.understanding b3.understanding
  let t := sys.time + 1
  (⟨a3, b3, sys.energyDepletionRate, sys.gracePeriod, t,
    sys.histUA ++ [a3.understanding], sys.histUB ++ [b3.understanding],
    sys.histEA ++ [a3.state.energy], sys.histEB ++ [b3.state.energy],
    sys.histAlign ++ [align], sys.histShared ++ [shared]⟩,
   makeChoice a3 t sys.gracePeriod && makeChoice b3 t sys.gracePeriod)

/-- Iterated simulation (ReciprocMirrorSystem.simulate, ignoring the
early-exit and printing): noise streams give the Gaussian draws of each
step. -/
noncomputable def runSteps (sys : System) (nA nB : ℕ → List ℝ) : ℕ → System
  | 0 => sys
  | k + 1 => (step (runSteps sys nA nB k) (nA k) (nB k)).1

end Base

namespace Trust

/-- One interaction record stored by update_trust in
reciprocal_mirror_trust.py: quality, shared space, the time step and the
phase at the moment of the interaction. -/
structure Interaction where
  quality : ℝ
  sharedSpace : ℝ
  time : ℕ
  phase : ℕ

/-- ReciprocMirrorAgent of reciprocal_mirror_trust.py: the base agent
fields plus the stored base openness and base convergence rate, the
trust scalar, the bounded interaction memory with its window, the
betrayal and success counters and the recorded trust history. -/
structure TAgent where
  state : CState
  baseOpenness : ℝ
  baseConvergence : ℝ
  threshold : ℝ
  learningRate : ℝ
  convergenceRate : ℝ
  understanding : ℝ
  phase : ℕ
  trust : ℝ
  trustHistory : List ℝ
  memoryWindow : ℕ
  interactionMemory : List Interaction
  betrayals : ℕ
  successes : ℕ

/-- Appending to a deque with maxlen = window: the new record goes to
the back and the front is dropped once the window is full. -/
def pushMemory (window : ℕ) (mem : List Interaction) (r : Interaction) :
    List Interaction :=
  let m := mem ++ [r]
  m.drop (m.length - window)

/-- ReciprocMirrorAgent.update_trust: store the interaction; with at
least three stored records average quality and shared space over the
last three and pick the delta (+0.05 success, -0.1 betrayal, +0.01
drift) amplified by 1.5 in phase 3 or later; with fewer records use
+0.02 for quality above 0.5 and -0.05 otherwise; clip trust to
[0.1, 1.0] and recompute openness and convergence_rate from it. -/
noncomputable def updateTrust (a : TAgent) (mirrorQuality sharedSpace : ℝ)
    (timeStep : ℕ) : TAgent :=
  let mem := pushMemory a.memoryWindow a.interactionMemory
    ⟨mirrorQuality, sharedSpace, timeStep, a.phase⟩
  if 3 ≤ mem.length then
    let recent := mem.drop (mem.length - 3)
    let avgQuality := listMean (recent.map (fun i => i.quality))
    let avgSpace := listMean (recent.map (fun i => i.sharedSpace))
    let chosen : ℝ × ℕ × ℕ :=
      if 0.6 < avgQuality ∧ 0.4 < avgSpace then (0.05, a.successes + 1, a.betrayals)
      else if avgQuality < 0.3 ∨ avgSpace < 0.2 then (-0.1, a.successes, a.betrayals + 1)
      else (0.01, a.successes, a.betrayals)
    let delta := if 3 ≤ a.phase then chosen.1 * 1.5 else chosen.1
    let newTrust := min 1 (max 0.1 (a.trust + delta))
    { a with
      interactionMemory := mem,
      successes := chosen.2.1,
      betrayals := chosen.2.2,
      trust := newTrust,
      trustHistory := a.trustHistory ++ [newTrust],
      state := { a.state with openness := a.baseOpenness * (0.3 + 0.7 * newTrust) },
      convergenceRate := a.baseConvergence * (0.5 + 0.5 * newTrust) }
  else
    let delta : ℝ := if 0.5 < mirrorQuality then 0.02 else -0.05
    let newTrust := min 1 (max 0.1 (a.trust + delta))
    { a with
      interactionMemory := mem,
      trust := newTrust,
      trustHistory := a.trustHistory ++ [newTrust],
      state := { a.state with openness := a.baseOpenness * (0.3 + 0.7 * newTrust) },
      convergenceRate := a.baseConvergence * (0.5 + 0.5 * newTrust) }

/-- Trust-variant ReciprocMirrorAgent.mirror: the quality scale is
min(1, understanding + 0.1 * trust) and the result is divided by its
norm with no zero guard; the (trust-inflated) Gaussian draw is an
explicit argument. -/
noncomputable def mirror (a : TAgent) (other : CState) (currentU : ℝ)
    (noise : List ℝ) : List ℝ :=
  normVec ((List.zipWith (fun o z => o * min 1 (currentU + 0.1 * a.trust) + z)
    other.dimensions noise).map (fun x => x * (a.state.openness * a.state.energy)))

/-- Trust-variant ReciprocMirrorAgent.update_understanding, identical
to the base variant: clamp-at-1 additive update and phase recompute. -/
noncomputable def updateUnderstanding (a : TAgent) (mirrorQuality otherComplexity : ℝ) :
    TAgent :=
  let u := min 1 (a.understanding +
    a.learningRate * mirrorQuality * (1 - |a.state.complexity - otherComplexity|))
  { a with
    understanding := u,
    phase := if u < 0.25 then 1 else if u < 0.5 then 2 else if u < 0.75 then 3 else 4 }

/-- Mirror-quality scalar computed for agent A inside the trust-variant
ReciprocMirrorSystem.step (line 216): the raw signed Pearson
correlation, exactly as in the base variant. -/
noncomputable def stepQualityA (a b : TAgent) (noiseA : List ℝ) : ℝ :=
  pearson (mirror a b.state a.understanding noiseA) b.state.dimensions

end Trust

namespace Enhanced

/-- Enhanced ConsciousnessState of reciprocal_mirror_enhanced.py: the
same fields plus the recorded history of past dimension vectors. -/
structure EState where
  dimensions : List ℝ
  complexity : ℝ
  openness : ℝ
  energy : ℝ
  history : List (List ℝ)

/-- Enhanced ConsciousnessState.update: divide the new dimensions by
their norm and append the result to the history. -/
noncomputable def stateUpdate (s : EState) (newDimensions : List ℝ) : EState :=
  { s with
    dimensions := normVec newDimensions,
    history := s.history ++ [normVec newDimensions] }

/-- EnhancedReciprocMirrorAgent: state plus the constructor scalars. -/
structure EAgent where
  state : EState
  threshold : ℝ
  learningRate : ℝ
  convergenceRate : ℝ
  noiseLevel : ℝ
  understanding : ℝ
  phase : ℕ

/-- Vector built inside EnhancedReciprocMirrorAgent.mirror before
normalization: partner dimensions scaled by
min(1, understanding + 0.1) plus the Gaussian draw, scaled by
openness * energy. -/
noncomputable def mirrorPre (a : EAgent) (other : EState) (noise : List ℝ) : List ℝ :=
  (List.zipWith (fun o z => o * min 1 (a.understanding + 0.1) + z)
    other.dimensions noise).map (fun x => x * (a.state.openness * a.state.energy))

/-- EnhancedReciprocMirrorAgent.mirror: divide by the norm when it is
positive, and otherwise substitute the uniform vector
ones / sqrt(dimension). -/
noncomputable def mirror (a : EAgent) (other : EState) (noise : List ℝ) : List ℝ :=
  let m := mirrorPre a other noise
  if 0 < lnorm m then m.map (fun x => x / lnorm m)
  else List.replicate m.length (1 / Real.sqrt m.length)

/-- EnhancedReciprocMirrorAgent.update_understanding: the delta is
learning_rate * quality * openness, clamped at 1, with the same phase
thresholds as the other variants. -/
noncomputable def updateUnderstanding (a : EAgent) (mirrorQuality : ℝ) : EAgent :=
  let u := min 1 (a.understanding + a.learningRate * mirrorQuality * a.state.openness)
  { a with
    understanding := u,
    phase := if u < 0.25 then 1 else if u < 0.5 then 2 else if u < 0.75 then 3 else 4 }

/-- Mirror-quality scalar computed for agent A inside
EnhancedReciprocMirrorSystem.step (line 253): the absolute value of the
Pearson correlation of the produced mirror with the partner
dimensions. -/
noncomputable def stepQualityA (a b : EAgent) (noiseA : List ℝ) : ℝ :=
  |pearson (mirror a b.state noiseA) b.state.dimensions|

/-- InformationMetrics.integrated_information: zero for fewer than two
states, and otherwise the variance of the latest state minus the mean
of the variances of its two halves (split at floor(D / 2)), floored at
zero. -/
noncomputable def integratedInformation (states : List (List ℝ)) : ℝ :=
  if states.length < 2 then 0
  else
    let latest := states.getLastD []
    let mid := latest.length / 2
    max 0 (npVar latest - (npVar (latest.take mid) + npVar (latest.drop mid)) / 2)

end Enhanced

lemma norm2_nonneg (xs : List ℝ) : 0 ≤ norm2 xs := by
  unfold norm2 dot
  induction xs with
  | nil => simp
  | cons x t ih =>
    simp only [List.zipWith_cons_cons, List.sum_cons]
    exact add_nonneg (mul_self_nonneg x) ih

lemma norm2_map_div (xs : List ℝ) (c : ℝ) :
    norm2 (xs.map (fun x => x / c)) = norm2 xs / c ^ 2 := by
  unfold norm2 dot
  induction xs with
  | nil => simp
  | cons x t ih =>
    simp only [List.map_cons, List.zipWith_cons_cons, List.sum_cons, ih]
    rw [div_mul_div_comm, (pow_two c).symm, div_add_div_same]

lemma lnorm_normVec (xs : List ℝ) (h : 0 < norm2 xs) : lnorm (normVec xs) = 1 := by
  unfold lnorm normVec
  rw [norm2_map_div]
  unfold lnorm
  rw [Real.sq_sqrt (le_of_lt h), div_self (ne_of_gt h), Real.sqrt_one]

lemma sum_sq_dev (l : List ℝ) (c : ℝ) :
    (l.map (fun x => (x - c) ^ 2)).sum
      = (l.map (fun x => x ^ 2)).sum - 2 * c * l.sum + l.length * c ^ 2 := by
  induction l with
  | nil => simp
  | cons x t ih =>
    simp only [List.map_cons, List.sum_cons, List.length_cons, ih]
    push_cast
    ring

lemma npVar_eq_meanSq (l : List ℝ) : npVar l = meanSq l - listMean l ^ 2 := by
  rcases l.eq_nil_or_concat with rfl | ⟨t, x, rfl⟩
  · simp [npVar, meanSq, listMean]
  · unfold npVar meanSq listMean
    rw [sum_sq_dev]
    have hn : ((t ++ [x]).length : ℝ) ≠ 0 := by
      simp [List.length_append]
      positivity
    field_simp
    ring

lemma Base_step_understandingA (sys : Base.System) (nA nB : List ℝ) :
    ((Base.step sys nA nB).1).agentA.understanding
      = min 1 (sys.agentA.understanding + sys.agentA.learningRate * Base.stepQualityA sys nA
          * (1 - |sys.agentA.state.complexity - sys.agentB.state.complexity|)) := rfl

lemma Base_step_energyA (sys : Base.System) (nA nB : List ℝ) :
    ((Base.step sys nA nB).1).agentA.state.energy
      = max 0.1 (sys.agentA.state.energy - sys.energyDepletionRate) := rfl

lemma Base_step_rate (sys : Base.System) (nA nB : List ℝ) :
    ((Base.step sys nA nB).1).energyDepletionRate = sys.energyDepletionRate := rfl

lemma Base_step_flag (sys : Base.System) (nA nB : List ℝ) :
    (Base.step sys nA nB).2
      = (Base.makeChoice ((Base.step sys nA nB).1).agentA (sys.time + 1) sys.gracePeriod
          && Base.makeChoice ((Base.step sys nA nB).1).agentB (sys.time + 1) sys.gracePeriod) :=
  rfl

noncomputable def exStateA : CState := ⟨[0, 1], 0.5, 0.7, 1⟩

noncomputable def exStateB : CState := ⟨[1, 0], 0.5, 0.6, 1⟩

noncomputable def exAgentA : Base.Agent := ⟨exStateA, 0.3, 0.05, 0.02, 0, 1⟩

noncomputable def exAgentB : Base.Agent := ⟨exStateB, 0.25, 0.04, 0.025, 0, 1⟩

noncomputable def exSys : Base.System := ⟨exAgentA, exAgentB, 0.002, 50, 0, [], [], [], [], [], []⟩

noncomputable def exNoiseA : List ℝ := [-(1 : ℝ) / 10, 1 / 10]

noncomputable def exNoiseB : List ℝ := [0, 0]

lemma exMirrorPre_eval : Base.mirrorPre exAgentA exStateB 0 exNoiseA = [0, 7 / 100] := by
  unfold Base.mirrorPre exAgentA exStateA exStateB exNoiseA
  norm_num [min_def]

lemma exNormVec_eval : normVec [0, (7 : ℝ) / 100] = [0, 1] := by
  have h : lnorm [0, (7 : ℝ) / 100] = 7 / 100 := by
    unfold lnorm norm2 dot
    rw [show (List.zipWith (fun a b => a * b) [0, (7 : ℝ) / 100] [0, (7 : ℝ) / 100]).sum
        = ((7 : ℝ) / 100) ^ 2 by norm_num]
    exact Real.sqrt_sq (by norm_num)
  unfold normVec
  rw [h]
  norm_num

lemma exPearson_eval : pearson [0, (1 : ℝ)] [1, 0] = -1 := by
  have hm1 : listMean [0, (1 : ℝ)] = 1 / 2 := by unfold listMean; norm_num
  have hm2 : listMean [(1 : ℝ), 0] = 1 / 2 := by unfold listMean; norm_num
  unfold pearson
  rw [hm1, hm2]
  rw [show ((([0, (1 : ℝ)].map (fun a => (a - 1 / 2) ^ 2)).sum) *
      (([(1 : ℝ), 0].map (fun b => (b - 1 / 2) ^ 2)).sum)) = ((1 : ℝ) / 2) ^ 2 by norm_num]
  rw [Real.sqrt_sq (by norm_num : (0 : ℝ) ≤ 1 / 2)]
  norm_num

lemma exMirror_eval : Base.mirror exAgentA exStateB 0 exNoiseA = [0, 1] := by
  unfold Base.mirror
  rw [exMirrorPre_eval]
  exact exNormVec_eval

lemma exQuality_eval : Base.stepQualityA exSys exNoiseA = -1 := by
  show pearson (Base.mirror exAgentA exStateB 0 exNoiseA) exStateB.dimensions = -1
  rw [exMirror_eval]
  exact exPearson_eval

/-- Claim C1, counterexample: in the base variant a single reachable
step lowers understanding_of_other.  With the concrete noise draw
exNoiseA the produced mirror is perfectly anti-correlated with the
partner state, the signed quality is -1, and the recorded understanding
drops from 0 to -0.05, so the recorded sequence is not monotonically
non-decreasing. -/
theorem c1_counterexample :
    ((Base.step exSys exNoiseA exNoiseB).1).agentA.understanding
      < exSys.agentA.understanding := by
  rw [Base_step_understandingA, exQuality_eval]
  norm_num [exSys, exAgentA, exAgentB, exStateA, exStateB, min_def]

/-- Claim C2, counterexample: the mirror-quality scalar that the base
variant ReciprocMirrorSystem.step passes to update_understanding is the
raw signed Pearson correlation; on the concrete state exSys with noise
draw exNoiseA it equals -1, which is negative, hence it is not the
absolute value of the correlation. -/
theorem c2_counterexample :
    Base.stepQualityA exSys exNoiseA = -1 ∧ Base.stepQualityA exSys exNoiseA < 0 :=
  ⟨exQuality_eval, by rw [exQuality_eval]; norm_num⟩

noncomputable def exTAgent : Trust.TAgent :=
  ⟨exStateA, 0.7, 0.02, 0.3, 0.05, 0.02, 0, 1, 0.5, [0.5], 20, [], 0, 0⟩

noncomputable def exEStateA : Enhanced.EState := ⟨[0, 1], 0.5, 0.7, 1, [[0, 1]]⟩

noncomputable def exEStateB : Enhanced.EState := ⟨[1, 0], 0.7, 0.6, 1, [[1, 0]]⟩

noncomputable def exEAgentA : Enhanced.EAgent := ⟨exEStateA, 0.3, 0.1, 0.02, 0.1, 0, 1⟩

noncomputable def exEAgentB : Enhanced.EAgent := ⟨exEStateB, 0.3, 0.1, 0.02, 0.1, 0, 1⟩

/-- Claim C1, amended: the understanding update of every variant is
monotone non-decreasing on any step whose mirror-quality scalar is
non-negative (there is no decay term); in the enhanced variant the
quality passed by the step is an absolute correlation, hence always
non-negative, so its recorded understanding never decreases.  In the
base and trust variants the signed quality of a step can be negative
and understanding can then decrease (see the counterexample). -/
theorem c1_amended :
    (∀ (a : Base.Agent) (q oc : ℝ), 0 ≤ a.learningRate → 0 ≤ q →
        |a.state.complexity - oc| ≤ 1 → a.understanding ≤ 1 →
        a.understanding ≤ (Base.updateUnderstanding a q oc).understanding)
    ∧ (∀ (a : Trust.TAgent) (q oc : ℝ), 0 ≤ a.learningRate → 0 ≤ q →
        |a.state.complexity - oc| ≤ 1 → a.understanding ≤ 1 →
        a.understanding ≤ (Trust.updateUnderstanding a q oc).understanding)
    ∧ (∀ (a b : Enhanced.EAgent) (noise : List ℝ), 0 ≤ a.learningRate →
        0 ≤ a.state.openness → a.understanding ≤ 1 →
        a.understanding ≤ (Enhanced.updateUnderstanding a
          (Enhanced.stepQualityA a b noise)).understanding) := by
  refine ⟨?_, ?_, ?_⟩
  · intro a q oc hlr hq hc hu
    simp only [Base.updateUnderstanding]
    have hd : 0 ≤ a.learningRate * q * (1 - |a.state.complexity - oc|) :=
      mul_nonneg (mul_nonneg hlr hq) (by linarith)
    exact le_min hu (by linarith)
  · intro a q oc hlr hq hc hu
    simp only [Trust.updateUnderstanding]
    have hd : 0 ≤ a.learningRate * q * (1 - |a.state.complexity - oc|) :=
      mul_nonneg (mul_nonneg hlr hq) (by linarith)
    exact le_min hu (by linarith)
  · intro a b noise hlr ho hu
    simp only [Enhanced.updateUnderstanding]
    have hq : 0 ≤ Enhanced.stepQualityA a b noise := abs_nonneg _
    have hd : 0 ≤ a.learningRate * Enhanced.stepQualityA a b noise * a.state.openness :=
      mul_nonneg (mul_nonneg hlr hq) ho
    exact le_min hu (by linarith)

/-- Witness for c1_amended at concrete agents of all three variants. -/
theorem c1_amended_witness :
    exAgentA.understanding
      ≤ (Base.updateUnderstanding exAgentA (1 / 2) (1 / 2)).understanding
    ∧ exTAgent.understanding
      ≤ (Trust.updateUnderstanding exTAgent (1 / 2) (1 / 2)).understanding
    ∧ exEAgentA.understanding
      ≤ (Enhanced.updateUnderstanding exEAgentA
          (Enhanced.stepQualityA exEAgentA exEAgentB [])).understanding :=
  ⟨c1_amended.1 exAgentA (1 / 2) (1 / 2) (by norm_num [exAgentA]) (by norm_num)
      (by norm_num [exAgentA, exStateA]) (by norm_num [exAgentA]),
   c1_amended.2.1 exTAgent (1 / 2) (1 / 2) (by norm_num [exTAgent]) (by norm_num)
      (by norm_num [exTAgent, exStateA]) (by norm_num [exTAgent]),
   c1_amended.2.2 exEAgentA exEAgentB [] (by norm_num [exEAgentA])
      (by norm_num [exEAgentA, exEStateA]) (by norm_num [exEAgentA])⟩

/-- Claim C2, amended: only the enhanced variant passes the absolute
Pearson correlation (hence a non-negative quality) to the understanding
update; the base and trust variant steps pass the raw signed Pearson
correlation of the produced mirror with the partner state, and that is
the exact scalar the base step feeds into update_understanding. -/
theorem c2_amended :
    (∀ (a b : Enhanced.EAgent) (noise : List ℝ),
        Enhanced.stepQualityA a b noise
          = |pearson (Enhanced.mirror a b.state noise) b.state.dimensions|
        ∧ 0 ≤ Enhanced.stepQualityA a b noise)
    ∧ (∀ (sys : Base.System) (noiseA : List ℝ),
        Base.stepQualityA sys noiseA
          = pearson (Base.mirror sys.agentA sys.agentB.state sys.agentA.understanding noiseA)
              sys.agentB.state.dimensions)
    ∧ (∀ (a b : Trust.TAgent) (noiseA : List ℝ),
        Trust.stepQualityA a b noiseA
          = pearson (Trust.mirror a b.state a.understanding noiseA) b.state.dimensions)
    ∧ (∀ (sys : Base.System) (nA nB : List ℝ),
        ((Base.step sys nA nB).1).agentA.understanding
          = min 1 (sys.agentA.understanding
              + sys.agentA.learningRate * Base.stepQualityA sys nA
                * (1 - |sys.agentA.state.complexity - sys.agentB.state.complexity|))) :=
  ⟨fun _ _ _ => ⟨rfl, abs_nonneg _⟩, fun _ _ => rfl, fun _ _ _ => rfl,
   fun sys nA nB => Base_step_understandingA sys nA nB⟩

/-- Phase consistency of a phase value with an understanding value:
the phase is the bucket index under the thresholds 0.25 / 0.5 / 0.75. -/
def phaseConsistent (u : ℝ) (p : ℕ) : Prop :=
  (p = 1 ↔ u < 0.25) ∧ (p = 2 ↔ 0.25 ≤ u ∧ u < 0.5)
    ∧ (p = 3 ↔ 0.5 ≤ u ∧ u < 0.75) ∧ (p = 4 ↔ 0.75 ≤ u)

lemma phase_bucket (u : ℝ) :
    phaseConsistent u
      (if u < 0.25 then 1 else if u < 0.5 then 2 else if u < 0.75 then 3 else 4) := by
  unfold phaseConsistent
  split_ifs with h1 h2 h3 <;>
    refine ⟨?_, ?_, ?_, ?_⟩ <;> simp <;> push_neg at * <;>
      first
        | linarith
        | (intro hx; linarith)
        | (constructor <;> linarith)

/-- Claim C6: after every call to update_understanding, in every
variant, the phase equals the bucket index of understanding_of_other
under the thresholds 0.25 / 0.5 / 0.75 (phase 1 iff u < 0.25, phase 2
iff 0.25 ≤ u < 0.5, phase 3 iff 0.5 ≤ u < 0.75, phase 4 iff u ≥ 0.75);
consequently the same holds for the agents recorded after a base-variant
system step. -/
theorem c6_phase_consistency :
    ∀ (a : Base.Agent) (ta : Trust.TAgent) (ea : Enhanced.EAgent) (sys : Base.System)
      (q oc qt oct qe : ℝ) (nA nB : List ℝ),
      phaseConsistent (Base.updateUnderstanding a q oc).understanding
        (Base.updateUnderstanding a q oc).phase
      ∧ phaseConsistent (Trust.updateUnderstanding ta qt oct).understanding
          (Trust.updateUnderstanding ta qt oct).phase
      ∧ phaseConsistent (Enhanced.updateUnderstanding ea qe).understanding
          (Enhanced.updateUnderstanding ea qe).phase
      ∧ phaseConsistent ((Base.step sys nA nB).1).agentA.understanding
          ((Base.step sys nA nB).1).agentA.phase := by
  intro a ta ea sys q oc qt oct qe nA nB
  exact ⟨phase_bucket _, phase_bucket _, phase_bucket _, phase_bucket _⟩

lemma runSteps_rate (sys : Base.System) (nA nB : ℕ → List ℝ) (n : ℕ) :
    (Base.runSteps sys nA nB n).energyDepletionRate = sys.energyDepletionRate := by
  induction n with
  | zero => rfl
  | succ k ih => simp only [Base.runSteps, Base_step_rate, ih]

/-- Claim C5: with a non-negative depletion rate and an initial energy
in [0.1, 1.0], after every base-variant step the energy of agent A is
exactly max(0.1, previous energy minus the rate), stays within
[0.1, 1.0] at every step of the run, and the energy sequence is
monotonically non-increasing. -/
theorem c5_energy (sys : Base.System) (nA nB : ℕ → List ℝ)
    (h0 : 0 ≤ sys.energyDepletionRate) (h1 : 0.1 ≤ sys.agentA.state.energy)
    (h2 : sys.agentA.state.energy ≤ 1) :
    ∀ n : ℕ,
      (Base.runSteps sys nA nB (n + 1)).agentA.state.energy
        = max 0.1 ((Base.runSteps sys nA nB n).agentA.state.energy
            - sys.energyDepletionRate)
      ∧ 0.1 ≤ (Base.runSteps sys nA nB n).agentA.state.energy
      ∧ (Base.runSteps sys nA nB n).agentA.state.energy ≤ 1
      ∧ (Base.runSteps sys nA nB (n + 1)).agentA.state.energy
          ≤ (Base.runSteps sys nA nB n).agentA.state.energy := by
  have hstep : ∀ k, (Base.runSteps sys nA nB (k + 1)).agentA.state.energy
      = max 0.1 ((Base.runSteps sys nA nB k).agentA.state.energy
          - sys.energyDepletionRate) := by
    intro k
    have h := Base_step_energyA (Base.runSteps sys nA nB k) (nA k) (nB k)
    rw [runSteps_rate] at h
    exact h
  have hbounds : ∀ k, 0.1 ≤ (Base.runSteps sys nA nB k).agentA.state.energy
      ∧ (Base.runSteps sys nA nB k).agentA.state.energy ≤ 1 := by
    intro k
    induction k with
    | zero => exact ⟨h1, h2⟩
    | succ m ih =>
      rw [hstep m]
      refine ⟨le_max_left _ _, max_le (by norm_num) (by linarith [ih.2])⟩
  intro n
  refine ⟨hstep n, (hbounds n).1, (hbounds n).2, ?_⟩
  rw [hstep n]
  exact max_le (hbounds n).1 (by linarith)

noncomputable def exNoiseStream : ℕ → List ℝ := fun _ => [0, 0]

/-- Witness for c5_energy on the concrete system exSys at step 0. -/
theorem c5_energy_witness :
    (Base.runSteps exSys exNoiseStream exNoiseStream 1).agentA.state.energy
      = max 0.1 ((Base.runSteps exSys exNoiseStream exNoiseStream 0).agentA.state.energy
          - exSys.energyDepletionRate)
    ∧ 0.1 ≤ (Base.runSteps exSys exNoiseStream exNoiseStream 0).agentA.state.energy
    ∧ (Base.runSteps exSys exNoiseStream exNoiseStream 0).agentA.state.energy ≤ 1
    ∧ (Base.runSteps exSys exNoiseStream exNoiseStream 1).agentA.state.energy
        ≤ (Base.runSteps exSys exNoiseStream exNoiseStream 0).agentA.state.energy :=
  c5_energy exSys exNoiseStream exNoiseStream (by norm_num [exSys])
    (by norm_num [exSys, exAgentA, exStateA]) (by norm_num [exSys, exAgentA, exStateA]) 0

lemma Base_step_thresholdA (sys : Base.System) (nA nB : List ℝ) :
    ((Base.step sys nA nB).1).agentA.threshold = sys.agentA.threshold := rfl

/-- Claim C7, amended: make_choice returns true for every time step
strictly below the grace period, regardless of the agent fields; after
the grace period an agent with threshold 0.3 whose understanding is
strictly below 0.3 returns false, so the step flag is false at the
first choice evaluation at or after the grace period; before the grace
period the step flag is always true.  The amendment replaces the
hypothesis understanding never exceeds 0.3 by strictly below 0.3: at
understanding exactly 0.3 the code keeps continuing (see the
counterexample). -/
theorem c7_amended :
    (∀ (a : Base.Agent) (t g : ℕ), t < g → Base.makeChoice a t g = true)
    ∧ (∀ (a : Base.Agent) (t g : ℕ), ¬ t < g → a.threshold = 0.3 →
        a.understanding < 0.3 → Base.makeChoice a t g = false)
    ∧ (∀ (sys : Base.System) (nA nB : List ℝ), sys.time + 1 < sys.gracePeriod →
        (Base.step sys nA nB).2 = true)
    ∧ (∀ (sys : Base.System) (nA nB : List ℝ), ¬ sys.time + 1 < sys.gracePeriod →
        sys.agentA.threshold = 0.3 →
        ((Base.step sys nA nB).1).agentA.understanding < 0.3 →
        (Base.step sys nA nB).2 = false) := by
  have hTrue : ∀ (a : Base.Agent) (t g : ℕ), t < g → Base.makeChoice a t g = true := by
    intro a t g h
    unfold Base.makeChoice
    rw [if_pos h]
  have hFalse : ∀ (a : Base.Agent) (t g : ℕ), ¬ t < g → a.threshold = 0.3 →
      a.understanding < 0.3 → Base.makeChoice a t g = false := by
    intro a t g h ht hu
    unfold Base.makeChoice
    rw [if_neg h, if_pos (by rw [ht]; exact hu)]
  refine ⟨hTrue, hFalse, ?_, ?_⟩
  · intro sys nA nB h
    rw [Base_step_flag, hTrue _ _ _ h, hTrue _ _ _ h]
    rfl
  · intro sys nA nB h ht hu
    have hthr : ((Base.step sys nA nB).1).agentA.threshold = 0.3 := by
      rw [Base_step_thresholdA, ht]
    rw [Base_step_flag, hFalse _ _ _ h hthr hu, Bool.false_and]

noncomputable def exAgent7e : Base.Agent := ⟨exStateA, 0.3, 0.05, 0.02, 0.2, 1⟩

noncomputable def exAgent7d : Base.Agent := ⟨exStateA, 0.3, 0, 0.02, 0, 1⟩

noncomputable def exSys7 : Base.System :=
  ⟨exAgent7d, exAgentB, 0.002, 50, 49, [], [], [], [], [], []⟩

/-- Witness for c7_amended: a pre-grace choice, a post-grace
disengagement, a pre-grace step flag and a post-grace step flag. -/
theorem c7_witness :
    Base.makeChoice exAgentA 3 50 = true
    ∧ Base.makeChoice exAgent7e 50 50 = false
    ∧ (Base.step exSys exNoiseA exNoiseB).2 = true
    ∧ (Base.step exSys7 exNoiseA exNoiseB).2 = false := by
  have hpost : ((Base.step exSys7 exNoiseA exNoiseB).1).agentA.understanding < 0.3 := by
    rw [Base_step_understandingA]
    norm_num [exSys7, exAgent7d, exAgentB, exStateA, exStateB, min_def]
  exact ⟨c7_amended.1 exAgentA 3 50 (by norm_num),
    c7_amended.2.1 exAgent7e 50 50 (by norm_num) rfl (by norm_num [exAgent7e]),
    c7_amended.2.2.1 exSys exNoiseA exNoiseB (by norm_num [exSys]),
    c7_amended.2.2.2 exSys7 exNoiseA exNoiseB (by norm_num [exSys7]) rfl hpost⟩

noncomputable def exAgent7 : Base.Agent := ⟨⟨[1, 0], 0.5, 0.7, 1⟩, 0.3, 0.05, 0.02, 0.3, 2⟩

/-- Claim C7, counterexample: an agent whose threshold is 0.3 and whose
understanding_of_other equals exactly 0.3 (so it never exceeded 0.3)
still returns continue = true at the first choice evaluation at the end
of the grace period, because disengagement requires understanding
strictly below the threshold. -/
theorem c7_counterexample :
    exAgent7.threshold = 0.3 ∧ exAgent7.understanding ≤ 0.3
      ∧ Base.makeChoice exAgent7 50 50 = true := by
  refine ⟨rfl, by norm_num [exAgent7], ?_⟩
  norm_num [Base.makeChoice, exAgent7]

/-- Claim C3: whenever the vector to be normalized is nonzero, every
state-vector producing operation yields a unit vector: State
construction (post_init), converge_state, the mirror output, and the
enhanced State.update. -/
theorem c3_normalization (d : List ℝ) (c o e : ℝ) (a : Base.Agent) (other : CState)
    (ag : Base.Agent) (oth : CState) (cu : ℝ) (noise : List ℝ)
    (es : Enhanced.EState) (nd : List ℝ)
    (h1 : 0 < norm2 d) (h2 : 0 < norm2 (Base.convergePre a other))
    (h3 : 0 < norm2 (Base.mirrorPre ag oth cu noise)) (h4 : 0 < norm2 nd) :
    lnorm (mkState d c o e).dimensions = 1
    ∧ lnorm (Base.convergeState a other).state.dimensions = 1
    ∧ lnorm (Base.mirror ag oth cu noise) = 1
    ∧ lnorm (Enhanced.stateUpdate es nd).dimensions = 1 :=
  ⟨lnorm_normVec d h1, lnorm_normVec _ h2, lnorm_normVec _ h3, lnorm_normVec _ h4⟩

/-- Witness for c3_normalization at concrete nonzero vectors. -/
theorem c3_normalization_witness :
    lnorm (mkState [0, 1] 0.5 0.7 1).dimensions = 1
    ∧ lnorm (Base.convergeState exAgentA exStateB).state.dimensions = 1
    ∧ lnorm (Base.mirror exAgentA exStateB 0 exNoiseA) = 1
    ∧ lnorm (Enhanced.stateUpdate exEStateA [1, 1]).dimensions = 1 :=
  c3_normalization [0, 1] 0.5 0.7 1 exAgentA exStateB exAgentA exStateB 0 exNoiseA
    exEStateA [1, 1]
    (by norm_num [norm2, dot])
    (by norm_num [Base.convergePre, exAgentA, exStateA, exStateB, norm2, dot])
    (by rw [show Base.mirrorPre exAgentA exStateB 0 exNoiseA = [0, 7 / 100]
        from exMirrorPre_eval]; norm_num [norm2, dot])
    (by norm_num [norm2, dot])

lemma norm2_replicate (n : ℕ) (x : ℝ) : norm2 (List.replicate n x) = n * x ^ 2 := by
  unfold norm2 dot
  induction n with
  | zero => simp
  | succ k ih =>
    simp only [List.replicate_succ, List.zipWith_cons_cons, List.sum_cons, ih,
      List.length_replicate]
    push_cast
    ring

/-- Claim C4, amended: only the enhanced variant mirror substitutes the
uniform-magnitude vector ones / sqrt(D) when the pre-normalization
vector has zero norm (and that substitute is a unit vector whenever the
dimension is positive); the base variant mirror and converge_state
divide by the norm unconditionally (see the counterexample). -/
theorem c4_amended (a : Enhanced.EAgent) (other : Enhanced.EState) (noise : List ℝ)
    (h : ¬ 0 < lnorm (Enhanced.mirrorPre a other noise)) :
    Enhanced.mirror a other noise
      = List.replicate (Enhanced.mirrorPre a other noise).length
          (1 / Real.sqrt (Enhanced.mirrorPre a other noise).length)
    ∧ (0 < (Enhanced.mirrorPre a other noise).length →
        lnorm (Enhanced.mirror a other noise) = 1) := by
  have hm : Enhanced.mirror a other noise
      = List.replicate (Enhanced.mirrorPre a other noise).length
          (1 / Real.sqrt (Enhanced.mirrorPre a other noise).length) := by
    unfold Enhanced.mirror
    rw [if_neg h]
  refine ⟨hm, ?_⟩
  intro hl
  rw [hm]
  unfold lnorm
  rw [norm2_replicate]
  have hn : (0 : ℝ) < (Enhanced.mirrorPre a other noise).length := by exact_mod_cast hl
  rw [div_pow, one_pow, Real.sq_sqrt (le_of_lt hn), mul_one_div, div_self (ne_of_gt hn),
    Real.sqrt_one]

noncomputable def exNoise4 : List ℝ := [-(1 : ℝ) / 10, 0]

lemma exEMirrorPre_eval : Enhanced.mirrorPre exEAgentA exEStateB exNoise4 = [0, 0] := by
  unfold Enhanced.mirrorPre exEAgentA exEStateA exEStateB exNoise4
  norm_num [min_def]

/-- Witness for c4_amended: a concrete enhanced mirror call whose
pre-normalization vector is the zero vector. -/
theorem c4_amended_witness :
    ¬ 0 < lnorm (Enhanced.mirrorPre exEAgentA exEStateB exNoise4)
    ∧ Enhanced.mirror exEAgentA exEStateB exNoise4
        = List.replicate (Enhanced.mirrorPre exEAgentA exEStateB exNoise4).length
            (1 / Real.sqrt (Enhanced.mirrorPre exEAgentA exEStateB exNoise4).length) := by
  have h : ¬ 0 < lnorm (Enhanced.mirrorPre exEAgentA exEStateB exNoise4) := by
    rw [exEMirrorPre_eval]
    norm_num [lnorm, norm2, dot, Real.sqrt_zero]
  exact ⟨h, (c4_amended exEAgentA exEStateB exNoise4 h).1⟩

/-- Claim C4, counterexample: in the base variant the same degenerate
noise draw makes the pre-normalization mirror vector zero, and the
mirror operation does not substitute a uniform unit vector: it divides
by the zero norm, returning the zero vector (in float arithmetic a NaN
vector), whose norm is 0 and which differs from the uniform unit vector
of dimension 2. -/
theorem c4_counterexample :
    Base.mirrorPre exAgentA exStateB 0 exNoise4 = [0, 0]
    ∧ Base.mirror exAgentA exStateB 0 exNoise4 = [0, 0]
    ∧ lnorm (Base.mirror exAgentA exStateB 0 exNoise4) = 0
    ∧ Base.mirror exAgentA exStateB 0 exNoise4
        ≠ List.replicate 2 (1 / Real.sqrt 2) := by
  have hpre : Base.mirrorPre exAgentA exStateB 0 exNoise4 = [0, 0] := by
    unfold Base.mirrorPre exAgentA exStateA exStateB exNoise4
    norm_num [min_def]
  have hmir : Base.mirror exAgentA exStateB 0 exNoise4 = [0, 0] := by
    unfold Base.mirror
    rw [hpre]
    unfold normVec
    norm_num
  have hz : lnorm (Base.mirror exAgentA exStateB 0 exNoise4) = 0 := by
    rw [hmir]
    norm_num [lnorm, norm2, dot, Real.sqrt_zero]
  have hone : lnorm (List.replicate 2 (1 / Real.sqrt 2)) = 1 := by
    unfold lnorm
    rw [norm2_replicate, div_pow, one_pow, Real.sq_sqrt (by norm_num : (0 : ℝ) ≤ 2)]
    norm_num [Real.sqrt_one]
  refine ⟨hpre, hmir, hz, ?_⟩
  intro hc
  rw [hc, hone] at hz
  norm_num at hz

lemma drop_sub_three {α : Type} (l2 rest : List α) (h : l2.length = 3) :
    (rest ++ l2).drop ((rest ++ l2).length - 3) = l2 := by
  rw [List.length_append, h, Nat.add_sub_cancel]
  exact List.drop_left rest l2

lemma listMean_three (x y z : ℝ) : listMean [x, y, z] = (x + y + z) / 3 := by
  unfold listMean
  norm_num
  ring

lemma updateTrust_feedback (a : Trust.TAgent) (q s : ℝ) (t : ℕ) :
    (Trust.updateTrust a q s t).state.openness
      = a.baseOpenness * (0.3 + 0.7 * (Trust.updateTrust a q s t).trust)
    ∧ (Trust.updateTrust a q s t).convergenceRate
      = a.baseConvergence * (0.5 + 0.5 * (Trust.updateTrust a q s t).trust) := by
  simp only [Trust.updateTrust]
  split_ifs <;> exact ⟨rfl, rfl⟩

/-- Claim C8: in the memory-weighted trust variant, when at least three
interaction records exist after storing the current one (the three most
recent being r1, r2, r3), update_trust averages quality and shared
space over those three records, applies +0.05 when both averages exceed
their thresholds, -0.1 when either is below its low threshold, +0.01
otherwise, multiplies the delta by 1.5 when the phase is at least 3,
clips the trust to [0.1, 1.0], and afterwards openness and
convergence_rate are the trust-modulated multiples of their bases. -/
theorem c8_trust_memory (a : Trust.TAgent) (q s : ℝ) (t : ℕ)
    (rest : List Trust.Interaction) (r1 r2 r3 : Trust.Interaction)
    (h : Trust.pushMemory a.memoryWindow a.interactionMemory ⟨q, s, t, a.phase⟩
        = rest ++ [r1, r2, r3]) :
    (Trust.updateTrust a q s t).trust
      = min 1 (max 0.1 (a.trust
          + (if 3 ≤ a.phase then (3 : ℝ) / 2 else 1)
            * (if 0.6 < (r1.quality + r2.quality + r3.quality) / 3
                  ∧ 0.4 < (r1.sharedSpace + r2.sharedSpace + r3.sharedSpace) / 3
               then 0.05
               else if (r1.quality + r2.quality + r3.quality) / 3 < 0.3
                  ∨ (r1.sharedSpace + r2.sharedSpace + r3.sharedSpace) / 3 < 0.2
               then -0.1 else 0.01)))
    ∧ (Trust.updateTrust a q s t).state.openness
        = a.baseOpenness * (0.3 + 0.7 * (Trust.updateTrust a q s t).trust)
    ∧ (Trust.updateTrust a q s t).convergenceRate
        = a.baseConvergence * (0.5 + 0.5 * (Trust.updateTrust a q s t).trust) := by
  refine ⟨?_, (updateTrust_feedback a q s t).1, (updateTrust_feedback a q s t).2⟩
  have hc : 3 ≤ (rest ++ [r1, r2, r3]).length := by simp
  simp only [Trust.updateTrust]
  rw [h, if_pos hc, drop_sub_three [r1, r2, r3] rest rfl]
  simp only [List.map_cons, List.map_nil, listMean_three]
  split_ifs <;> norm_num

/-- Claim C10: in the trust variant, while fewer than three interaction
records are stored after appending the current one (the first two
interactions), the trust delta is exactly +0.02 when the supplied
mirror_quality exceeds 0.5 and -0.05 otherwise, with no phase
amplification, and the clamp to [0.1, 1.0] still applies. -/
theorem c10_trust_early (a : Trust.TAgent) (q s : ℝ) (t : ℕ)
    (h : (Trust.pushMemory a.memoryWindow a.interactionMemory
        ⟨q, s, t, a.phase⟩).length < 3) :
    (Trust.updateTrust a q s t).trust
      = min 1 (max 0.1 (a.trust + if 0.5 < q then (0.02 : ℝ) else -0.05)) := by
  have hc : ¬ 3 ≤ (Trust.pushMemory a.memoryWindow a.interactionMemory
      ⟨q, s, t, a.phase⟩).length := by omega
  simp only [Trust.updateTrust]
  rw [if_neg hc]

/-- Witness for c10_trust_early: agent with empty interaction memory. -/
theorem c10_trust_early_witness :
    (Trust.updateTrust exTAgent 0.7 0.6 0).trust
      = min 1 (max 0.1 (exTAgent.trust + if 0.5 < (0.7 : ℝ) then (0.02 : ℝ) else -0.05)) :=
  c10_trust_early exTAgent 0.7 0.6 0 (by norm_num [Trust.pushMemory, exTAgent])

noncomputable def exRec1 : Trust.Interaction := ⟨0.9, 0.8, 0, 1⟩

noncomputable def exRec2 : Trust.Interaction := ⟨0.8, 0.7, 1, 1⟩

noncomputable def exRec3 : Trust.Interaction := ⟨0.7, 0.6, 2, 1⟩

noncomputable def exTAgent8 : Trust.TAgent :=
  ⟨exStateA, 0.7, 0.02, 0.3, 0.05, 0.02, 0, 1, 0.5, [0.5], 20, [exRec1, exRec2], 0, 0⟩

/-- Witness for c8_trust_memory: an agent with two stored records, the
third arriving with this call. -/
theorem c8_trust_memory_witness :
    (Trust.updateTrust exTAgent8 0.7 0.6 2).trust
      = min 1 (max 0.1 (exTAgent8.trust
          + (if 3 ≤ exTAgent8.phase then (3 : ℝ) / 2 else 1)
            * (if 0.6 < (exRec1.quality + exRec2.quality + exRec3.quality) / 3
                  ∧ 0.4 < (exRec1.sharedSpace + exRec2.sharedSpace + exRec3.sharedSpace) / 3
               then 0.05
               else if (exRec1.quality + exRec2.quality + exRec3.quality) / 3 < 0.3
                  ∨ (exRec1.sharedSpace + exRec2.sharedSpace + exRec3.sharedSpace) / 3 < 0.2
               then -0.1 else 0.01)))
    ∧ (Trust.updateTrust exTAgent8 0.7 0.6 2).state.openness
        = exTAgent8.baseOpenness * (0.3 + 0.7 * (Trust.updateTrust exTAgent8 0.7 0.6 2).trust)
    ∧ (Trust.updateTrust exTAgent8 0.7 0.6 2).convergenceRate
        = exTAgent8.baseConvergence
            * (0.5 + 0.5 * (Trust.updateTrust exTAgent8 0.7 0.6 2).trust) :=
  c8_trust_memory exTAgent8 0.7 0.6 2 [] exRec1 exRec2 exRec3 rfl

/-- Claim C9: the integrated-information proxy returns 0 for fewer than
two states, otherwise the floor at zero of the variance of the latest
state minus the mean of the variances of its two halves split at
floor(D / 2) (here written through the identity variance equals mean of
squares minus squared mean), and its value is never negative. -/
theorem c9_integrated_information :
    (∀ states : List (List ℝ), states.length < 2 →
        Enhanced.integratedInformation states = 0)
    ∧ (∀ states : List (List ℝ), 2 ≤ states.length →
        Enhanced.integratedInformation states
          = max 0 ((meanSq (states.getLastD []) - listMean (states.getLastD []) ^ 2)
              - ((meanSq ((states.getLastD []).take ((states.getLastD []).length / 2))
                    - listMean ((states.getLastD []).take
                        ((states.getLastD []).length / 2)) ^ 2)
                  + (meanSq ((states.getLastD []).drop ((states.getLastD []).length / 2))
                    - listMean ((states.getLastD []).drop
                        ((states.getLastD []).length / 2)) ^ 2)) / 2))
    ∧ (∀ states : List (List ℝ), 0 ≤ Enhanced.integratedInformation states) := by
  refine ⟨?_, ?_, ?_⟩
  · intro s h
    simp only [Enhanced.integratedInformation]
    rw [if_pos h]
  · intro s h
    have hc : ¬ s.length < 2 := by omega
    simp only [Enhanced.integratedInformation]
    rw [if_neg hc, npVar_eq_meanSq, npVar_eq_meanSq, npVar_eq_meanSq]
  · intro s
    simp only [Enhanced.integratedInformation]
    split_ifs
    · exact le_refl 0
    · exact le_max_left 0 _

noncomputable def exStates : List (List ℝ) := [[1, 2], [3, 5]]

/-- Witness for the conditional conjuncts of c9_integrated_information
at a concrete two-state history. -/
theorem c9_integrated_information_witness :
    Enhanced.integratedInformation exStates
      = max 0 ((meanSq (exStates.getLastD []) - listMean (exStates.getLastD []) ^ 2)
          - ((meanSq ((exStates.getLastD []).take ((exStates.getLastD []).length / 2))
                - listMean ((exStates.getLastD []).take
                    ((exStates.getLastD []).length / 2)) ^ 2)
              + (meanSq ((exStates.getLastD []).drop ((exStates.getLastD []).length / 2))
                - listMean ((exStates.getLastD []).drop
                    ((exStates.getLastD []).length / 2)) ^ 2)) / 2) :=
  c9_integrated_information.2.1 exStates (by norm_num [exStates])
